import Mathlib

/-!
Verification of the authentication / rate-limiting core of the
tiny-school-hub API backend.

The development shallowly embeds the Go source:

* `internal/core/auth` (`HashPassword`, `VerifyPassword`,
  `GenerateAccessToken`, `ValidateAccessToken`, `HashRefreshToken`),
* `internal/core/domain` (`Role`, `RefreshToken` and its validity checks),
* `internal/http/middleware` (the per-IP token-bucket `RateLimiter`),
* `internal/http/handlers` (`AuthHandler.Register` / `Refresh`),
* `internal/repository/postgres` (the refresh-token store operations).

Bytes and Go strings handled as bytes are `List Nat` (each entry `< 256`);
times are integers (seconds) except in the rate limiter where exact
rational arithmetic replaces Go's float64 token counts.  Cryptographic
primitives (argon2, SHA-256, HMAC) appear as explicit function parameters:
the theorems assume nothing about them beyond what the claim needs
(determinism is automatic; collision-freeness is an explicit hypothesis,
the standard ideal-primitive reading), and each witness instantiates them
with a concrete executable function.
-/

namespace TinySchoolHub

/-! ### Base64 (Go `encoding/base64` RawStdEncoding, no padding)

`HashPassword` writes `base64(salt) ++ ":" ++ base64(hash)` and
`VerifyPassword` decodes the two segments back; the standard alphabet is
`A-Z a-z 0-9 + /`. -/

/-- Byte of the standard base64 alphabet at index `n` (total on `Nat`;
only indices `< 64` arise). -/
def b64Byte (n : Nat) : Nat :=
  if n < 26 then 65 + n
  else if n < 52 then 97 + (n - 26)
  else if n < 62 then 48 + (n - 52)
  else if n = 62 then 43
  else 47

/-- Index of byte `b` in the standard base64 alphabet, `none` for a byte
outside the alphabet (decoding failure). -/
def b64Index (b : Nat) : Option Nat :=
  if 65 ≤ b ∧ b ≤ 90 then some (b - 65)
  else if 97 ≤ b ∧ b ≤ 122 then some (b - 97 + 26)
  else if 48 ≤ b ∧ b ≤ 57 then some (b - 48 + 52)
  else if b = 43 then some 62
  else if b = 47 then some 63
  else none

/-- Unpadded base64 encoding of a byte list, 3 bytes to 4 alphabet bytes,
with the 1- and 2-byte tail groups of RawStdEncoding. -/
def b64Encode : List Nat → List Nat
  | [] => []
  | [b1] => [b64Byte (b1 / 4), b64Byte (b1 % 4 * 16)]
  | [b1, b2] => [b64Byte (b1 / 4), b64Byte (b1 % 4 * 16 + b2 / 16), b64Byte (b2 % 16 * 4)]
  | b1 :: b2 :: b3 :: rest =>
      b64Byte (b1 / 4) :: b64Byte (b1 % 4 * 16 + b2 / 16) ::
      b64Byte (b2 % 16 * 4 + b3 / 64) :: b64Byte (b3 % 64) :: b64Encode rest

/-- Unpadded base64 decoding; fails on a byte outside the alphabet or on a
length ≡ 1 (mod 4) tail, as Go's RawStdEncoding does. -/
def b64Decode : List Nat → Option (List Nat)
  | [] => some []
  | [_] => none
  | [c1, c2] => do
      let i1 ← b64Index c1
      let i2 ← b64Index c2
      pure [i1 * 4 + i2 / 16]
  | [c1, c2, c3] => do
      let i1 ← b64Index c1
      let i2 ← b64Index c2
      let i3 ← b64Index c3
      pure [i1 * 4 + i2 / 16, i2 % 16 * 16 + i3 / 4]
  | c1 :: c2 :: c3 :: c4 :: rest => do
      let i1 ← b64Index c1
      let i2 ← b64Index c2
      let i3 ← b64Index c3
      let i4 ← b64Index c4
      let tail ← b64Decode rest
      pure ([i1 * 4 + i2 / 16, i2 % 16 * 16 + i3 / 4, i3 % 4 * 64 + i4] ++ tail)

theorem b64Index_b64Byte : ∀ n < 64, b64Index (b64Byte n) = some n := by
  decide

theorem b64Byte_ne_colon (n : Nat) : b64Byte n ≠ 58 := by
  unfold b64Byte
  repeat first | omega | split

theorem b64Encode_no_colon : ∀ (bs : List Nat), ∀ c ∈ b64Encode bs, c ≠ 58
  | [], c, hc => by simp [b64Encode] at hc
  | [b1], c, hc => by
      simp only [b64Encode, List.mem_cons, List.not_mem_nil, or_false] at hc
      rcases hc with h | h <;> (subst h; exact b64Byte_ne_colon _)
  | [b1, b2], c, hc => by
      simp only [b64Encode, List.mem_cons, List.not_mem_nil, or_false] at hc
      rcases hc with h | h | h <;> (subst h; exact b64Byte_ne_colon _)
  | b1 :: b2 :: b3 :: rest, c, hc => by
      simp only [b64Encode, List.mem_cons] at hc
      rcases hc with h | h | h | h | h
      · subst h; exact b64Byte_ne_colon _
      · subst h; exact b64Byte_ne_colon _
      · subst h; exact b64Byte_ne_colon _
      · subst h; exact b64Byte_ne_colon _
      · exact b64Encode_no_colon rest c h

theorem b64Decode_b64Encode :
    ∀ (bs : List Nat), (∀ b ∈ bs, b < 256) → b64Decode (b64Encode bs) = some bs
  | [], _ => rfl
  | [b1], h => by
      have hb1 : b1 < 256 := h b1 (by simp)
      simp only [b64Encode, b64Decode]
      rw [b64Index_b64Byte (b1 / 4) (by omega), b64Index_b64Byte (b1 % 4 * 16) (by omega)]
      show some [b1 / 4 * 4 + b1 % 4 * 16 / 16] = some [b1]
      have e1 : b1 / 4 * 4 + b1 % 4 * 16 / 16 = b1 := by omega
      rw [e1]
  | [b1, b2], h => by
      have hb1 : b1 < 256 := h b1 (by simp)
      have hb2 : b2 < 256 := h b2 (by simp)
      simp only [b64Encode, b64Decode]
      rw [b64Index_b64Byte (b1 / 4) (by omega),
        b64Index_b64Byte (b1 % 4 * 16 + b2 / 16) (by omega),
        b64Index_b64Byte (b2 % 16 * 4) (by omega)]
      show some [b1 / 4 * 4 + (b1 % 4 * 16 + b2 / 16) / 16,
          (b1 % 4 * 16 + b2 / 16) % 16 * 16 + b2 % 16 * 4 / 4] = some [b1, b2]
      have e1 : b1 / 4 * 4 + (b1 % 4 * 16 + b2 / 16) / 16 = b1 := by omega
      have e2 : (b1 % 4 * 16 + b2 / 16) % 16 * 16 + b2 % 16 * 4 / 4 = b2 := by omega
      rw [e1, e2]
  | b1 :: b2 :: b3 :: rest, h => by
      have hb1 : b1 < 256 := h b1 (by simp)
      have hb2 : b2 < 256 := h b2 (by simp)
      have hb3 : b3 < 256 := h b3 (by simp)
      have ih := b64Decode_b64Encode rest (fun b hb => h b (by simp [hb]))
      simp only [b64Encode, b64Decode]
      rw [b64Index_b64Byte (b1 / 4) (by omega),
        b64Index_b64Byte (b1 % 4 * 16 + b2 / 16) (by omega),
        b64Index_b64Byte (b2 % 16 * 4 + b3 / 64) (by omega),
        b64Index_b64Byte (b3 % 64) (by omega), ih]
      show some ([b1 / 4 * 4 + (b1 % 4 * 16 + b2 / 16) / 16,
          (b1 % 4 * 16 + b2 / 16) % 16 * 16 + (b2 % 16 * 4 + b3 / 64) / 4,
          (b2 % 16 * 4 + b3 / 64) % 4 * 64 + b3 % 64] ++ rest) =
        some (b1 :: b2 :: b3 :: rest)
      have e1 : b1 / 4 * 4 + (b1 % 4 * 16 + b2 / 16) / 16 = b1 := by omega
      have e2 : (b1 % 4 * 16 + b2 / 16) % 16 * 16 + (b2 % 16 * 4 + b3 / 64) / 4 = b2 := by
        omega
      have e3 : (b2 % 16 * 4 + b3 / 64) % 4 * 64 + b3 % 64 = b3 := by omega
      rw [e1, e2, e3]
      rfl

/-! ### PasswordHasher (`internal/core/auth`, `HashPassword` / `VerifyPassword`)

`argon2.IDKey` with the fixed cost parameters is the parameter
`kdf : password bytes → salt bytes → derived key bytes`; the random salt
drawn by `rand.Read` inside `HashPassword` is an explicit argument. -/

/-- Index of the first `':'` (byte 58) in a byte list, as the scan loop in
`VerifyPassword`; `none` when absent (`colonIdx == -1`). -/
def findColon : List Nat → Option Nat
  | [] => none
  | b :: rest => if b == 58 then some 0 else (findColon rest).map (· + 1)

/-- Embedding of `auth.HashPassword`: derive `kdf password salt` and encode
as `base64(salt) ++ ":" ++ base64(hash)`. -/
def HashPassword (kdf : List Nat → List Nat → List Nat)
    (password salt : List Nat) : List Nat :=
  b64Encode salt ++ 58 :: b64Encode (kdf password salt)

/-- The length-then-bytewise comparison loop at the end of
`VerifyPassword`. -/
def bytesEq : List Nat → List Nat → Bool
  | [], [] => true
  | x :: xs, y :: ys => x == y && bytesEq xs ys
  | _, _ => false

/-- Embedding of `auth.VerifyPassword`: split at the first `':'`, base64-
decode both segments (errors on malformed input), recompute the derived
key with the extracted salt, compare bytewise. -/
def VerifyPassword (kdf : List Nat → List Nat → List Nat)
    (password encoded : List Nat) : Except String Bool :=
  match findColon encoded with
  | none => .error "invalid hash format"
  | some i =>
    match b64Decode (encoded.take i) with
    | none => .error "failed to decode salt"
    | some salt =>
      match b64Decode (encoded.drop (i + 1)) with
      | none => .error "failed to decode hash"
      | some hash => .ok (bytesEq (kdf password salt) hash)

/-- A credential the parsing phase of `VerifyPassword` rejects: no `':'`
separator, or a segment that is not valid unpadded base64. -/
def credentialMalformed (encoded : List Nat) : Bool :=
  match findColon encoded with
  | none => true
  | some i => (b64Decode (encoded.take i)).isNone || (b64Decode (encoded.drop (i + 1))).isNone

theorem bytesEq_iff : ∀ (xs ys : List Nat), bytesEq xs ys = true ↔ xs = ys
  | [], [] => by simp [bytesEq]
  | [], _ :: _ => by simp [bytesEq]
  | _ :: _, [] => by simp [bytesEq]
  | x :: xs, y :: ys => by
      simp [bytesEq, bytesEq_iff xs ys]

theorem findColon_append_colon :
    ∀ (a b : List Nat), (∀ c ∈ a, c ≠ 58) → findColon (a ++ 58 :: b) = some a.length
  | [], b, _ => by simp [findColon]
  | x :: a, b, h => by
      have hx : x ≠ 58 := h x (by simp)
      have ih := findColon_append_colon a b (fun c hc => h c (by simp [hc]))
      rw [List.cons_append]
      show (if x == 58 then some 0 else (findColon (a ++ 58 :: b)).map (· + 1)) =
        some (x :: a).length
      rw [ih, if_neg (by simpa using hx)]
      rfl

theorem take_len_append (a b : List Nat) : (a ++ b).take a.length = a := by
  simp [List.take_append_eq_append_take]

theorem drop_len_succ_append (a : List Nat) (x : Nat) (b : List Nat) :
    (a ++ x :: b).drop (a.length + 1) = b := by
  rw [List.drop_append_eq_append_drop]
  simp

/-- C5: verifying the password that was hashed succeeds; verifying a
different password against the same credential fails, given that the
key-derivation function separates the two passwords on this salt (the
collision-freeness idealization of argon2id). -/
theorem verify_hash_roundtrip (kdf : List Nat → List Nat → List Nat)
    (p p2 salt : List Nat)
    (hsalt : ∀ b ∈ salt, b < 256) (hkey : ∀ b ∈ kdf p salt, b < 256)
    (_hne : p2 ≠ p) (hcoll : kdf p2 salt ≠ kdf p salt) :
    VerifyPassword kdf p (HashPassword kdf p salt) = .ok true ∧
    VerifyPassword kdf p2 (HashPassword kdf p salt) = .ok false := by
  have hsplit : findColon (HashPassword kdf p salt) = some (b64Encode salt).length :=
    findColon_append_colon _ _ (b64Encode_no_colon salt)
  have htake : (HashPassword kdf p salt).take (b64Encode salt).length = b64Encode salt :=
    take_len_append _ _
  have hdrop : (HashPassword kdf p salt).drop ((b64Encode salt).length + 1) =
      b64Encode (kdf p salt) :=
    drop_len_succ_append _ _ _
  constructor
  · simp only [VerifyPassword, hsplit, htake, hdrop,
      b64Decode_b64Encode salt hsalt, b64Decode_b64Encode _ hkey]
    simp [bytesEq_iff]
  · simp only [VerifyPassword, hsplit, htake, hdrop,
      b64Decode_b64Encode salt hsalt, b64Decode_b64Encode _ hkey]
    have hb : bytesEq (kdf p2 salt) (kdf p salt) = false := by
      rw [Bool.eq_false_iff]
      intro hcb
      exact hcoll ((bytesEq_iff _ _).mp hcb)
    rw [hb]

/-- Witness for C5 at `kdf := fun pw _ => pw`, `p = [1]`, `p2 = [2]`,
`salt = [3]`. -/
theorem verify_hash_roundtrip_witness :
    VerifyPassword (fun pw _ => pw) [1] (HashPassword (fun pw _ => pw) [1] [3]) = .ok true ∧
    VerifyPassword (fun pw _ => pw) [2] (HashPassword (fun pw _ => pw) [1] [3]) = .ok false :=
  verify_hash_roundtrip (fun pw _ => pw) [1] [2] [3]
    (by decide) (by decide) (by decide) (by decide)

/-- C8: on a credential without separator or with an undecodable segment,
`VerifyPassword` returns a format error, never a boolean verdict (the
embedding is a total function, so no panic is possible). -/
theorem verify_malformed_errors (kdf : List Nat → List Nat → List Nat)
    (p encoded : List Nat) (h : credentialMalformed encoded = true) :
    ∃ msg, VerifyPassword kdf p encoded = .error msg := by
  rcases hc : findColon encoded with _ | i
  · exact ⟨"invalid hash format", by simp only [VerifyPassword, hc]⟩
  rcases hs : b64Decode (encoded.take i) with _ | salt
  · exact ⟨"failed to decode salt", by simp only [VerifyPassword, hc, hs]⟩
  rcases hh : b64Decode (encoded.drop (i + 1)) with _ | hsh
  · exact ⟨"failed to decode hash", by simp only [VerifyPassword, hc, hs, hh]⟩
  exfalso
  simp [credentialMalformed, hc, hs, hh] at h

/-- Witness for C8 at the bytes of `"not-a-valid-encoding"` (no `':'`). -/
theorem verify_malformed_errors_witness :
    credentialMalformed
        [110, 111, 116, 45, 97, 45, 118, 97, 108, 105, 100, 45, 101,
          110, 99, 111, 100, 105, 110, 103] = true ∧
    ∃ msg, VerifyPassword (fun pw _ => pw) []
        [110, 111, 116, 45, 97, 45, 118, 97, 108, 105, 100, 45, 101,
          110, 99, 111, 100, 105, 110, 103] = .error msg :=
  ⟨by decide, verify_malformed_errors _ _ _ (by decide)⟩

/-! ### TokenIssuer/Validator (`internal/core/auth`,
`GenerateAccessToken` / `ValidateAccessToken`)

A token is its parsed form: declared signing method, claims, signature.
The HMAC computation of the jwt library is the parameter `mac`; the
signature of a well-formed token is `mac method claims secret`.
`ValidateAccessToken` follows jwt/v5 `ParseWithClaims`: the key function
(which rejects any non-HMAC declared method, the source's
`token.Method.(*jwt.SigningMethodHMAC)` check), then signature
verification, then claims validation (`exp` strictly past, `nbf` in the
future). -/

/-- JWT signing methods relevant here; the source issues HS256 and its
key function accepts exactly the HMAC family. -/
inductive SigningMethod
  | HS256 | HS384 | HS512 | RS256 | ES256 | none_
deriving DecidableEq

/-- The `token.Method.(*jwt.SigningMethodHMAC)` type test in the key
function of `ValidateAccessToken`. -/
def SigningMethod.isHMAC : SigningMethod → Bool
  | .HS256 | .HS384 | .HS512 => true
  | _ => false

/-- Embedding of `auth.Claims`: user id, email, role plus the registered
claims set by `GenerateAccessToken`. -/
structure Claims where
  userID : String
  email : String
  role : String
  expiresAt : Int
  issuedAt : Int
  notBefore : Int
deriving DecidableEq

/-- A parsed JWT: declared method, claims and signature. -/
structure Token where
  method : SigningMethod
  claims : Claims
  sig : Nat
deriving DecidableEq

/-- The claims record built by `GenerateAccessToken`: `IssuedAt = now`,
`ExpiresAt = now + expiry`, `NotBefore = now`. -/
def accessClaims (now : Int) (userID email role : String) (expiry : Int) : Claims :=
  { userID := userID, email := email, role := role,
    expiresAt := now + expiry, issuedAt := now, notBefore := now }

/-- Embedding of `auth.GenerateAccessToken`: HS256 token over
`accessClaims`, signed with `secret`. -/
def GenerateAccessToken (mac : SigningMethod → Claims → String → Nat)
    (now : Int) (userID email role secret : String) (expiry : Int) : Token :=
  { method := .HS256,
    claims := accessClaims now userID email role expiry,
    sig := mac .HS256 (accessClaims now userID email role expiry) secret }

/-- Failure cases of `ValidateAccessToken` (jwt/v5 error classes as
surfaced through the source's key function and parse call). -/
inductive TokenError
  | unexpectedSigningMethod
  | signatureInvalid
  | tokenExpired
  | tokenNotYetValid
deriving DecidableEq

/-- Embedding of `auth.ValidateAccessToken`: reject a non-HMAC declared
method, verify the signature against `secret`, then validate `exp` and
`nbf` against `now`. -/
def ValidateAccessToken (mac : SigningMethod → Claims → String → Nat)
    (now : Int) (token : Token) (secret : String) : Except TokenError Claims :=
  if !token.method.isHMAC then .error .unexpectedSigningMethod
  else if token.sig ≠ mac token.method token.claims secret then .error .signatureInvalid
  else if token.claims.expiresAt < now then .error .tokenExpired
  else if now < token.claims.notBefore then .error .tokenNotYetValid
  else .ok token.claims

/-- C6: issuing a token and immediately validating it with the same
secret succeeds with the original subject id, email and role, and with
not-before equal to issued-at. -/
theorem issue_validate_roundtrip (mac : SigningMethod → Claims → String → Nat)
    (now : Int) (userID email role secret : String) (ttl : Int) (hpos : 0 < ttl) :
    ∃ c, ValidateAccessToken mac now
        (GenerateAccessToken mac now userID email role secret ttl) secret = .ok c ∧
      c.userID = userID ∧ c.email = email ∧ c.role = role ∧ c.notBefore = c.issuedAt := by
  refine ⟨accessClaims now userID email role ttl, ?_, rfl, rfl, rfl, rfl⟩
  unfold ValidateAccessToken GenerateAccessToken
  rw [if_neg (by simp [SigningMethod.isHMAC]), if_neg (by simp),
    if_neg (by simp [accessClaims]; omega), if_neg (by simp [accessClaims])]

/-- Witness for C6 at `mac := fun _ _ _ => 0`, `now = 0`, `ttl = 1`. -/
theorem issue_validate_roundtrip_witness :
    ∃ c, ValidateAccessToken (fun _ _ _ => 0) 0
        (GenerateAccessToken (fun _ _ _ => 0) 0 "u1" "a@b.c" "PARENT" "sec" 1) "sec" = .ok c ∧
      c.userID = "u1" ∧ c.email = "a@b.c" ∧ c.role = "PARENT" ∧ c.notBefore = c.issuedAt :=
  issue_validate_roundtrip (fun _ _ _ => 0) 0 "u1" "a@b.c" "PARENT" "sec" 1 (by decide)

/-- C7: validating a token issued under `secret` with a different secret
fails with a signature error, given that the HMAC separates the two
secrets on these claims (the ideal-MAC assumption); and a token whose
header declares a non-HMAC method is rejected regardless of its
signature. -/
theorem validate_wrong_secret_and_alg (mac : SigningMethod → Claims → String → Nat)
    (now : Int) (userID email role secret secret2 : String) (ttl : Int)
    (hsep : mac .HS256 (accessClaims now userID email role ttl) secret ≠
      mac .HS256 (accessClaims now userID email role ttl) secret2) :
    ValidateAccessToken mac now
        (GenerateAccessToken mac now userID email role secret ttl) secret2 =
      .error .signatureInvalid ∧
    ∀ (token : Token) (s : String), token.method.isHMAC = false →
      ValidateAccessToken mac now token s = .error .unexpectedSigningMethod := by
  constructor
  · unfold ValidateAccessToken GenerateAccessToken
    rw [if_neg (by simp [SigningMethod.isHMAC]), if_pos (by simpa using hsep)]
  · intro token s h
    unfold ValidateAccessToken
    rw [if_pos (by simp [h])]

/-- Witness for C7 at `mac := fun _ _ s => s.length`, secrets `"k"` and
`"kk"`, and a concrete RS256 token. -/
theorem validate_wrong_secret_and_alg_witness :
    ValidateAccessToken (fun _ _ s => s.length) 0
        (GenerateAccessToken (fun _ _ s => s.length) 0 "u" "e" "ADMIN" "k" 1) "kk" =
      .error .signatureInvalid ∧
    ValidateAccessToken (fun _ _ s => s.length) 0
        ⟨.RS256, accessClaims 0 "u" "e" "ADMIN" 1, 0⟩ "k" =
      .error .unexpectedSigningMethod :=
  ⟨(validate_wrong_secret_and_alg (fun _ _ s => s.length) 0 "u" "e" "ADMIN" "k" "kk" 1
      (by decide)).1,
    (validate_wrong_secret_and_alg (fun _ _ s => s.length) 0 "u" "e" "ADMIN" "k" "kk" 1
      (by decide)).2 ⟨.RS256, accessClaims 0 "u" "e" "ADMIN" 1, 0⟩ "k" rfl⟩

/-! ### RateLimiter (`internal/http/middleware/ratelimit.go`)

`golang.org/x/time/rate.Limiter` is embedded with exact rational token
counts and timestamps (Go uses float64 seconds); a fresh limiter holds a
full bucket, which is the observable state of `rate.NewLimiter` at its
first use.  The `visitors` map is a function `String → Option Limiter`;
`step` is one pass of the middleware body: resolve-or-create the bucket,
`Allow`, store the updated bucket. -/

/-- One `x/time/rate` token bucket: refill rate (tokens/second), burst
capacity, current tokens, time of the last update.  Go's ints and
float64s are all modelled as exact rationals. -/
structure Limiter where
  limit : ℚ
  burst : ℚ
  tokens : ℚ
  last : ℚ
deriving DecidableEq

/-- Embedding of `rate.NewLimiter(limit, burst)` created at time `t`: full bucket. -/
def mkLimiter (limit burst t : ℚ) : Limiter :=
  { limit := limit, burst := burst, tokens := burst, last := t }

/-- Embedding of `Limiter.Allow` at time `t`: refill `elapsed × limit` tokens, cap at
`burst` (the `if tokens > burst` clamp of `x/time/rate`), then consume
one token if at least one is available. -/
def Limiter.allow (l : Limiter) (t : ℚ) : Bool × Limiter :=
  let tokens0 := l.tokens + (t - l.last) * l.limit
  let tokens := if l.burst < tokens0 then l.burst else tokens0
  if 1 ≤ tokens then (true, { l with tokens := tokens - 1, last := t })
  else (false, { l with tokens := tokens, last := t })

/-- The middleware's `burstMultiplier` constant. -/
def burstMultiplier : ℚ := 2

/-- Embedding of `middleware.RateLimiter`: per-identity buckets plus the
configured sustained rate and burst. -/
structure RateLimiter where
  visitors : String → Option Limiter
  rate : ℚ
  burst : ℚ

/-- Embedding of `NewRateLimiter`: empty registry,
`burst = requestsPerSecond * burstMultiplier`. -/
def NewRateLimiter (requestsPerSecond : ℚ) : RateLimiter :=
  { visitors := fun _ => none,
    rate := requestsPerSecond,
    burst := requestsPerSecond * burstMultiplier }

/-- The identity-resolution prefix of the `RateLimit` middleware:
`X-Real-IP` if non-empty, else the whole `X-Forwarded-For` value if
non-empty, else `RemoteAddr`. -/
def resolveIdentity (remoteAddr xRealIP xForwardedFor : String) : String :=
  if xRealIP ≠ "" then xRealIP
  else if xForwardedFor ≠ "" then xForwardedFor
  else remoteAddr

/-- One request through the middleware for identity `ip` at time `t`:
`getVisitor` (lazily creating the bucket) followed by `Allow`, returning
the verdict and the updated registry. -/
def RateLimiter.step (rl : RateLimiter) (ip : String) (t : ℚ) : Bool × RateLimiter :=
  let lim := (rl.visitors ip).getD (mkLimiter rl.rate rl.burst t)
  let res := lim.allow t
  (res.1, { rl with visitors := fun k => if k = ip then some res.2 else rl.visitors k })

/-- Run a list of `(identity, time)` requests, collecting each verdict
with its identity. -/
def RateLimiter.run (rl : RateLimiter) : List (String × ℚ) → List (String × Bool) × RateLimiter
  | [] => ([], rl)
  | (ip, t) :: rest =>
      let s := rl.step ip t
      let r2 := s.2.run rest
      ((ip, s.1) :: r2.1, r2.2)

/-- The verdicts observed for identity `b` in a run's output. -/
def outcomesFor (b : String) (outs : List (String × Bool)) : List Bool :=
  (outs.filter fun p => p.1 == b).map Prod.snd

/-- C3 (recording the code's actual behaviour at the failing input):
with `X-Real-IP` empty and `X-Forwarded-For` set to a two-entry chain,
the middleware keys the bucket on the entire header value, not on the
chain's first entry — despite its own `// Take first IP` comment. -/
theorem resolveIdentity_uses_whole_forwarded_header :
    resolveIdentity "192.168.1.9:1234" "" "203.0.113.1, 192.168.1.1" =
      "203.0.113.1, 192.168.1.1" ∧
    resolveIdentity "192.168.1.9:1234" "" "203.0.113.1, 192.168.1.1" ≠ "203.0.113.1" := by
  constructor <;> decide

theorem RateLimiter.step_fst (rl : RateLimiter) (ip : String) (t : ℚ) :
    (rl.step ip t).1 =
      (((rl.visitors ip).getD (mkLimiter rl.rate rl.burst t)).allow t).1 := rfl

theorem RateLimiter.step_visitors (rl : RateLimiter) (ip k : String) (t : ℚ) :
    (rl.step ip t).2.visitors k =
      if k = ip then
        some (((rl.visitors ip).getD (mkLimiter rl.rate rl.burst t)).allow t).2
      else rl.visitors k := rfl

theorem RateLimiter.step_rate (rl : RateLimiter) (ip : String) (t : ℚ) :
    (rl.step ip t).2.rate = rl.rate := rfl

theorem RateLimiter.step_burst (rl : RateLimiter) (ip : String) (t : ℚ) :
    (rl.step ip t).2.burst = rl.burst := rfl

/-- C4: `NewRateLimiter r` has burst capacity `r * 2`, and in the
concrete `r = 1` scenario for one identity the first two requests pass,
the third immediate request is refused, and a fourth request after at
least one second passes again. -/
theorem token_bucket_burst_scenario (r : ℚ) (t : ℚ) (ht : 1 ≤ t) :
    (NewRateLimiter r).burst = r * 2 ∧
    ((NewRateLimiter 1).step "203.0.113.7" 0).1 = true ∧
    (((NewRateLimiter 1).step "203.0.113.7" 0).2.step "203.0.113.7" 0).1 = true ∧
    ((((NewRateLimiter 1).step "203.0.113.7" 0).2.step "203.0.113.7" 0).2.step
        "203.0.113.7" 0).1 = false ∧
    (((((NewRateLimiter 1).step "203.0.113.7" 0).2.step "203.0.113.7" 0).2.step
        "203.0.113.7" 0).2.step "203.0.113.7" t).1 = true := by
  have ha1 : (mkLimiter 1 (1 * burstMultiplier) 0).allow 0 =
      (true, ⟨1, 1 * burstMultiplier, 1, 0⟩) := by
    norm_num [mkLimiter, Limiter.allow, burstMultiplier]
  have ha2 : (⟨1, 1 * burstMultiplier, 1, 0⟩ : Limiter).allow 0 =
      (true, ⟨1, 1 * burstMultiplier, 0, 0⟩) := by
    norm_num [Limiter.allow, burstMultiplier]
  have ha3 : (⟨1, 1 * burstMultiplier, 0, 0⟩ : Limiter).allow 0 =
      (false, ⟨1, 1 * burstMultiplier, 0, 0⟩) := by
    norm_num [Limiter.allow, burstMultiplier]
  have o1 : ((NewRateLimiter 1).step "203.0.113.7" 0).1 = true := by
    rw [RateLimiter.step_fst]
    simp only [NewRateLimiter, Option.getD_none]
    rw [ha1]
  have v1 : ((NewRateLimiter 1).step "203.0.113.7" 0).2.visitors "203.0.113.7" =
      some ⟨1, 1 * burstMultiplier, 1, 0⟩ := by
    rw [RateLimiter.step_visitors, if_pos rfl]
    simp only [NewRateLimiter, Option.getD_none]
    rw [ha1]
  have o2 : (((NewRateLimiter 1).step "203.0.113.7" 0).2.step "203.0.113.7" 0).1 = true := by
    rw [RateLimiter.step_fst, v1, Option.getD_some, ha2]
  have v2 : (((NewRateLimiter 1).step "203.0.113.7" 0).2.step "203.0.113.7" 0).2.visitors
      "203.0.113.7" = some ⟨1, 1 * burstMultiplier, 0, 0⟩ := by
    rw [RateLimiter.step_visitors, if_pos rfl, v1, Option.getD_some, ha2]
  have o3 : ((((NewRateLimiter 1).step "203.0.113.7" 0).2.step "203.0.113.7" 0).2.step
      "203.0.113.7" 0).1 = false := by
    rw [RateLimiter.step_fst, v2, Option.getD_some, ha3]
  have v3 : ((((NewRateLimiter 1).step "203.0.113.7" 0).2.step "203.0.113.7" 0).2.step
      "203.0.113.7" 0).2.visitors "203.0.113.7" = some ⟨1, 1 * burstMultiplier, 0, 0⟩ := by
    rw [RateLimiter.step_visitors, if_pos rfl, v2, Option.getD_some, ha3]
  refine ⟨rfl, o1, o2, o3, ?_⟩
  rw [RateLimiter.step_fst, v3, Option.getD_some]
  show (Limiter.allow ⟨1, 1 * burstMultiplier, 0, 0⟩ t).1 = true
  simp only [Limiter.allow]
  by_cases hc : (1 * burstMultiplier : ℚ) < 0 + (t - 0) * 1
  · rw [if_pos hc, if_pos (by norm_num [burstMultiplier])]
  · rw [if_neg hc, if_pos (by linarith)]

theorem outcomesFor_cons (b ip : String) (ok : Bool) (outs : List (String × Bool)) :
    outcomesFor b ((ip, ok) :: outs) =
      if ip == b then ok :: outcomesFor b outs else outcomesFor b outs := by
  unfold outcomesFor
  rw [List.filter_cons]
  by_cases h : (ip == b) = true
  · rw [if_pos h, if_pos h, List.map_cons]
  · rw [if_neg h, if_neg h]

theorem run_outcomes_congr (b : String) :
    ∀ (reqs : List (String × ℚ)) (rl rl' : RateLimiter),
      rl.rate = rl'.rate → rl.burst = rl'.burst → rl.visitors b = rl'.visitors b →
      outcomesFor b (rl.run reqs).1 =
        outcomesFor b (rl'.run (reqs.filter fun p => p.1 == b)).1
  | [], _, _, _, _, _ => rfl
  | (ip, t) :: rest, rl, rl', hr, hb, hv => by
      by_cases hip : ip = b
      · have hfil : ((ip, t) :: rest).filter (fun p => p.1 == b) =
            (ip, t) :: rest.filter (fun p => p.1 == b) := by
          rw [List.filter_cons, if_pos (by simp [hip])]
        have hstep1 : (rl.step ip t).1 = (rl'.step ip t).1 := by
          rw [hip, RateLimiter.step_fst, RateLimiter.step_fst, hr, hb, hv]
        have hstepv : (rl.step ip t).2.visitors b = (rl'.step ip t).2.visitors b := by
          rw [hip, RateLimiter.step_visitors, RateLimiter.step_visitors, if_pos rfl,
            if_pos rfl, hr, hb, hv]
        have ih := run_outcomes_congr b rest (rl.step ip t).2 (rl'.step ip t).2
          (by rw [RateLimiter.step_rate, RateLimiter.step_rate, hr])
          (by rw [RateLimiter.step_burst, RateLimiter.step_burst, hb])
          hstepv
        rw [hfil]
        show outcomesFor b ((ip, (rl.step ip t).1) :: ((rl.step ip t).2.run rest).1) =
          outcomesFor b ((ip, (rl'.step ip t).1) ::
            ((rl'.step ip t).2.run (rest.filter fun p => p.1 == b)).1)
        rw [outcomesFor_cons, outcomesFor_cons, if_pos (by simp [hip]),
          if_pos (by simp [hip]), hstep1, ih]
      · have hfil : ((ip, t) :: rest).filter (fun p => p.1 == b) =
            rest.filter (fun p => p.1 == b) := by
          rw [List.filter_cons, if_neg (by simp [hip])]
        have hstepv : (rl.step ip t).2.visitors b = rl'.visitors b := by
          rw [RateLimiter.step_visitors, if_neg (fun hh => hip hh.symm), hv]
        have ih := run_outcomes_congr b rest (rl.step ip t).2 rl'
          (by rw [RateLimiter.step_rate, hr]) (by rw [RateLimiter.step_burst, hb]) hstepv
        rw [hfil]
        show outcomesFor b ((ip, (rl.step ip t).1) :: ((rl.step ip t).2.run rest).1) =
          outcomesFor b (rl'.run (rest.filter fun p => p.1 == b)).1
        rw [outcomesFor_cons, if_neg (by simp [hip]), ih]

/-- C9: the `Allow` verdicts observed for an identity `b` over any
request sequence are exactly the verdicts of `b`'s own requests run
alone — interleaved requests from any other identities (in particular an
identity exhausting its burst) never change `b`'s outcomes. -/
theorem rate_limit_bucket_isolation (b : String) (r : ℚ) (reqs : List (String × ℚ)) :
    outcomesFor b ((NewRateLimiter r).run reqs).1 =
      outcomesFor b ((NewRateLimiter r).run (reqs.filter fun p => p.1 == b)).1 :=
  run_outcomes_congr b reqs _ _ rfl rfl rfl

/-- Witness for C4 at `r = 5` and `t = 1`. -/
theorem token_bucket_burst_scenario_witness :
    (NewRateLimiter 5).burst = 5 * 2 ∧
    ((NewRateLimiter 1).step "203.0.113.7" 0).1 = true ∧
    (((NewRateLimiter 1).step "203.0.113.7" 0).2.step "203.0.113.7" 0).1 = true ∧
    ((((NewRateLimiter 1).step "203.0.113.7" 0).2.step "203.0.113.7" 0).2.step
        "203.0.113.7" 0).1 = false ∧
    (((((NewRateLimiter 1).step "203.0.113.7" 0).2.step "203.0.113.7" 0).2.step
        "203.0.113.7" 0).2.step "203.0.113.7" 1).1 = true :=
  token_bucket_burst_scenario 5 1 (le_refl 1)

/-! ### RefreshTokenLifecycle
(`internal/core/domain.RefreshToken`, `internal/repository/postgres`
`RefreshTokenRepo`, `internal/http/handlers.AuthHandler.Refresh`)

The persisted table is a `List RefreshToken` in insertion order.  The
SQL operations become: `Create` appends; `GetByTokenHash` is `find?` on
the hash (`QueryRow` takes the first matching row, `ErrNoRows` is
`none`); `Revoke` maps `revoked_at := some ts` over every row with the
hash.  `auth.HashRefreshToken` (SHA-256 + base64) is the parameter
`hashToken`; the user table is the list of existing user ids. -/

/-- Embedding of `domain.RefreshToken`. -/
structure RefreshToken where
  id : Nat
  userID : Nat
  tokenHash : String
  expiresAt : Int
  revokedAt : Option Int
  createdAt : Int
deriving DecidableEq

/-- Embedding of `RefreshToken.IsRevoked`: the revoked-at column is set. -/
def RefreshToken.IsRevoked (rt : RefreshToken) : Bool :=
  rt.revokedAt.isSome

/-- Embedding of `RefreshToken.IsExpired` at time `now`: `now.After(ExpiresAt)`. -/
def RefreshToken.IsExpired (rt : RefreshToken) (now : Int) : Bool :=
  decide (rt.expiresAt < now)

/-- Embedding of `RefreshToken.IsValid`: neither revoked nor expired. -/
def RefreshToken.IsValid (rt : RefreshToken) (now : Int) : Bool :=
  !rt.IsRevoked && !rt.IsExpired now

/-- Embedding of `RefreshTokenRepo.GetByTokenHash`: first stored row with this hash. -/
def getByTokenHash (store : List RefreshToken) (h : String) : Option RefreshToken :=
  store.find? (fun rt => rt.tokenHash == h)

/-- Embedding of `RefreshTokenRepo.Revoke`: set revoked-at on every row with this
hash (`UPDATE … SET revoked_at = $1 WHERE token_hash = $2`). -/
def revokeByHash (store : List RefreshToken) (h : String) (ts : Int) : List RefreshToken :=
  store.map (fun rt => if rt.tokenHash == h then { rt with revokedAt := some ts } else rt)

/-- The refresh-token record persisted for a freshly generated secret
(built identically in `Register`, `Login` and `Refresh`): hash of the
secret, owner, `ExpiresAt = now + refreshExpiry`, not revoked. -/
def generateRecord (hashToken : String → String) (id owner : Nat) (secret : String)
    (now refreshExpiry : Int) : RefreshToken :=
  { id := id, userID := owner, tokenHash := hashToken secret,
    expiresAt := now + refreshExpiry, revokedAt := none, createdAt := now }

/-- Error outcomes of `AuthHandler.Refresh` in the pure model:
`invalidToken` is the handler's `invalid_token` (lookup miss or invalid
record), `invalidUser` its `Invalid user`. -/
inductive RefreshError
  | invalidToken
  | invalidUser
deriving DecidableEq

/-- Embedding of `AuthHandler.Refresh`: hash the presented secret, look
it up, reject if missing or not `IsValid`, look up the owner, revoke the
matched hash, create the new record, return the new secret.  The
`revokeFails` / `createFails` flags inject persistence failures of
`tokenRepo.Revoke` / `tokenRepo.Create`; the source logs such an error
and continues, so a failed operation leaves the store unchanged and the
request still succeeds. -/
def Refresh (hashToken : String → String) (users : List Nat)
    (store : List RefreshToken) (now : Int) (presented : String)
    (newID : Nat) (newSecret : String) (refreshExpiry : Int)
    (revokeFails createFails : Bool) :
    Except RefreshError (List RefreshToken × String) :=
  match getByTokenHash store (hashToken presented) with
  | none => .error .invalidToken
  | some storedToken =>
    if !storedToken.IsValid now then .error .invalidToken
    else if !(users.contains storedToken.userID) then .error .invalidUser
    else
      let store1 := if revokeFails then store
        else revokeByHash store (hashToken presented) now
      let newTokenModel : RefreshToken :=
        { id := newID, userID := storedToken.userID,
          tokenHash := hashToken newSecret,
          expiresAt := now + refreshExpiry, revokedAt := none, createdAt := now }
      let store2 := if createFails then store1 else store1 ++ [newTokenModel]
      .ok (store2, newSecret)

/-- Any sequence of later refresh attempts (each given as time,
presented secret, id and secret for the would-be new record), applied
with the fault-free persistence layer; a rejected attempt leaves the
store unchanged. -/
def refreshChain (hashToken : String → String) (users : List Nat) (refreshExpiry : Int) :
    List RefreshToken → List (Int × String × Nat × String) → List RefreshToken
  | store, [] => store
  | store, (now, presented, nid, nsec) :: ops =>
      match Refresh hashToken users store now presented nid nsec refreshExpiry false false with
      | .ok (store2, _) => refreshChain hashToken users refreshExpiry store2 ops
      | .error _ => refreshChain hashToken users refreshExpiry store ops

/-! ### Register role handling (`AuthHandler.Register`, `domain.Role`) -/

/-- Embedding of `domain.Role.IsValid`: exactly TEACHER, PARENT, ADMIN. -/
def Role.IsValid (r : String) : Bool :=
  r == "TEACHER" || r == "PARENT" || r == "ADMIN"

/-- Embedding of the constant `domain.RoleParent`. -/
def RoleParent : String := "PARENT"

/-- A registration request body. -/
structure RegisterRequest where
  email : String
  password : String
  displayName : String
  role : String

/-- Rejections of `Register` in the pure model (hashing/token/entropy
failures and profile-creation failures are out of the role-handling
path). -/
inductive RegisterError
  | invalidInput
  | alreadyExists
deriving DecidableEq

/-- The fields of the created `domain.User` that `Register` computes
from the request. -/
structure UserRec where
  email : String
  role : String
deriving DecidableEq

/-- Embedding of the validation/role logic of `AuthHandler.Register`:
empty email, password or display name is `invalid_input`; the role
defaults to PARENT when not `Role.IsValid`; a user with an existing
email is `already_exists`; otherwise the user is created. -/
def Register (emailExists : Bool) (req : RegisterRequest) : Except RegisterError UserRec :=
  if req.email == "" || req.password == "" || req.displayName == "" then
    .error .invalidInput
  else if emailExists then .error .alreadyExists
  else .ok { email := req.email,
             role := if Role.IsValid req.role then req.role else RoleParent }

theorem getByTokenHash_cons (rt : RefreshToken) (rest : List RefreshToken) (h : String) :
    getByTokenHash (rt :: rest) h =
      if rt.tokenHash == h then some rt else getByTokenHash rest h := by
  unfold getByTokenHash
  rw [List.find?_cons]
  cases hx : rt.tokenHash == h <;> simp [hx]

theorem getByTokenHash_revokeByHash :
    ∀ (store : List RefreshToken) (h hp : String) (ts : Int),
    getByTokenHash (revokeByHash store hp ts) h =
      (getByTokenHash store h).map
        (fun r => if r.tokenHash == hp then { r with revokedAt := some ts } else r)
  | [], _, _, _ => rfl
  | rt :: rest, h, hp, ts => by
      have ih := getByTokenHash_revokeByHash rest h hp ts
      have hkeep : (if rt.tokenHash == hp then { rt with revokedAt := some ts } else rt).tokenHash
          = rt.tokenHash := by
        split <;> rfl
      show getByTokenHash ((if rt.tokenHash == hp then { rt with revokedAt := some ts } else rt)
          :: revokeByHash rest hp ts) h = _
      rw [getByTokenHash_cons, getByTokenHash_cons, hkeep]
      cases hh : rt.tokenHash == h
      · simpa using ih
      · simp

theorem getByTokenHash_append_left (l1 l2 : List RefreshToken) (h : String)
    (r : RefreshToken) (hfind : getByTokenHash l1 h = some r) :
    getByTokenHash (l1 ++ l2) h = some r := by
  unfold getByTokenHash at *
  rw [List.find?_append, hfind, Option.or_some]

theorem Refresh_rejects_revoked (hashToken : String → String) (users : List Nat)
    (store : List RefreshToken) (now : Int) (presented : String)
    (nid : Nat) (nsec : String) (exp : Int) (rf cf : Bool)
    (r : RefreshToken) (hfind : getByTokenHash store (hashToken presented) = some r)
    (hrev : r.IsRevoked = true) :
    Refresh hashToken users store now presented nid nsec exp rf cf =
      .error .invalidToken := by
  simp only [Refresh, hfind]
  rw [if_pos]
  simp [RefreshToken.IsValid, hrev]

theorem Refresh_ok_store (hashToken : String → String) (users : List Nat)
    (store st : List RefreshToken) (now : Int) (presented : String)
    (nid : Nat) (nsec sec : String) (exp : Int)
    (hok : Refresh hashToken users store now presented nid nsec exp false false =
      .ok (st, sec)) :
    ∃ r, getByTokenHash store (hashToken presented) = some r ∧
      st = revokeByHash store (hashToken presented) now ++
        [{ id := nid, userID := r.userID, tokenHash := hashToken nsec,
           expiresAt := now + exp, revokedAt := none, createdAt := now }] := by
  unfold Refresh at hok
  rcases hfind : getByTokenHash store (hashToken presented) with _ | r
  · simp [hfind] at hok
  · simp only [hfind] at hok
    refine ⟨r, rfl, ?_⟩
    by_cases hv : (!r.IsValid now) = true
    · rw [if_pos hv] at hok
      exact absurd hok (by simp)
    · rw [if_neg hv] at hok
      by_cases hu : (!(users.contains r.userID)) = true
      · rw [if_pos hu] at hok
        exact absurd hok (by simp)
      · rw [if_neg hu] at hok
        have hok2 : (revokeByHash store (hashToken presented) now ++
            [{ id := nid, userID := r.userID, tokenHash := hashToken nsec,
               expiresAt := now + exp, revokedAt := none, createdAt := now }],
            nsec) = (st, sec) := Except.ok.inj hok
        exact (congrArg Prod.fst hok2).symm

theorem revoked_preserved_step (hashToken : String → String) (users : List Nat)
    (exp : Int) (store : List RefreshToken) (now : Int) (presented : String)
    (nid : Nat) (nsec : String) (h : String)
    (hr : ∃ r, getByTokenHash store h = some r ∧ r.IsRevoked = true) :
    ∃ r, getByTokenHash
        (match Refresh hashToken users store now presented nid nsec exp false false with
          | .ok (st, _) => st
          | .error _ => store) h = some r ∧ r.IsRevoked = true := by
  obtain ⟨r, hfind, hrev⟩ := hr
  rcases hres : Refresh hashToken users store now presented nid nsec exp false false with
    e | ⟨st, sec⟩
  · exact ⟨r, hfind, hrev⟩
  · obtain ⟨r0, _, hst⟩ := Refresh_ok_store hashToken users store st now presented
      nid nsec sec exp hres
    subst hst
    refine ⟨if r.tokenHash == hashToken presented
      then { r with revokedAt := some now } else r, ?_, ?_⟩
    · apply getByTokenHash_append_left
      rw [getByTokenHash_revokeByHash, hfind, Option.map_some']
    · split
      · rfl
      · exact hrev

theorem revoked_preserved_chain (hashToken : String → String) (users : List Nat)
    (exp : Int) :
    ∀ (ops : List (Int × String × Nat × String)) (store : List RefreshToken) (h : String),
    (∃ r, getByTokenHash store h = some r ∧ r.IsRevoked = true) →
    ∃ r, getByTokenHash (refreshChain hashToken users exp store ops) h = some r ∧
      r.IsRevoked = true
  | [], _, _, hr => hr
  | (now, presented, nid, nsec) :: ops, store, h, hr => by
      have hstep := revoked_preserved_step hashToken users exp store now presented
        nid nsec h hr
      unfold refreshChain
      rcases hres : Refresh hashToken users store now presented nid nsec exp false false with
        e | ⟨st, sec⟩
      · rw [hres] at hstep
        exact revoked_preserved_chain hashToken users exp ops store h hstep
      · rw [hres] at hstep
        exact revoked_preserved_chain hashToken users exp ops st h hstep

/-- C1: after `Generate` stores the record for secret `s` and one
rotation (`Refresh`) presenting `s` succeeds, the record matched by
`hash s` has revoked-at set, so every subsequent rotation presenting `s`
— after any further chain of rotation attempts — is rejected while its
record is revoked (not merely absent); the descendant secret from the
rotation remains usable; and exactly one record of the lineage is active
(non-revoked, non-expired) after the rotation.  Hypotheses: the token
hash is injective (collision-free idealization of SHA-256), the rotation
secret is fresh, the owner exists, and the rotation happens within the
tokens' lifetimes. -/
theorem refresh_rotation_reuse_detection
    (hashToken : String → String) (hinj : Function.Injective hashToken)
    (users : List Nat) (owner : Nat) (huser : owner ∈ users)
    (s s1 : String) (hs1 : s1 ≠ s)
    (id0 id1 : Nat) (now0 now1 now2 exp : Int)
    (hexp : 0 ≤ exp) (hnexp1 : ¬ now0 + exp < now1) (hnexp2 : ¬ now1 + exp < now2) :
    Refresh hashToken users [generateRecord hashToken id0 owner s now0 exp]
        now1 s id1 s1 exp false false =
      .ok ([{ generateRecord hashToken id0 owner s now0 exp with revokedAt := some now1 },
            generateRecord hashToken id1 owner s1 now1 exp], s1) ∧
    (∃ r, getByTokenHash
        [{ generateRecord hashToken id0 owner s now0 exp with revokedAt := some now1 },
         generateRecord hashToken id1 owner s1 now1 exp] (hashToken s) = some r ∧
      r.IsRevoked = true) ∧
    (∀ (ops : List (Int × String × Nat × String)) (now3 : Int) (id3 : Nat) (s3 : String),
      Refresh hashToken users
          (refreshChain hashToken users exp
            [{ generateRecord hashToken id0 owner s now0 exp with revokedAt := some now1 },
             generateRecord hashToken id1 owner s1 now1 exp] ops)
          now3 s id3 s3 exp false false = .error .invalidToken) ∧
    (∀ (id2 : Nat) (s2 : String), ∃ st, Refresh hashToken users
        [{ generateRecord hashToken id0 owner s now0 exp with revokedAt := some now1 },
         generateRecord hashToken id1 owner s1 now1 exp] now2 s1 id2 s2 exp false false =
      .ok (st, s2)) ∧
    ([{ generateRecord hashToken id0 owner s now0 exp with revokedAt := some now1 },
      generateRecord hashToken id1 owner s1 now1 exp].filter
        (fun rt => rt.IsValid now1)).length = 1 := by
  have hfind0 : getByTokenHash [generateRecord hashToken id0 owner s now0 exp]
      (hashToken s) = some (generateRecord hashToken id0 owner s now0 exp) := by
    rw [getByTokenHash_cons, if_pos (by simp [generateRecord])]
  have hvalid0 : (generateRecord hashToken id0 owner s now0 exp).IsValid now1 = true := by
    simp [generateRecord, RefreshToken.IsValid, RefreshToken.IsRevoked,
      RefreshToken.IsExpired, hnexp1]
  have h2 : ∃ r, getByTokenHash
      [{ generateRecord hashToken id0 owner s now0 exp with revokedAt := some now1 },
       generateRecord hashToken id1 owner s1 now1 exp] (hashToken s) = some r ∧
      r.IsRevoked = true := by
    refine ⟨{ generateRecord hashToken id0 owner s now0 exp with revokedAt := some now1 },
      ?_, rfl⟩
    rw [getByTokenHash_cons, if_pos (by simp [generateRecord])]
  refine ⟨?_, h2, ?_, ?_, ?_⟩
  · simp only [Refresh, hfind0]
    rw [if_neg (by simp [hvalid0]), if_neg (by simp [generateRecord, huser])]
    simp [revokeByHash, generateRecord]
  · intro ops now3 id3 s3
    obtain ⟨r, hf, hr⟩ := revoked_preserved_chain hashToken users exp ops _ (hashToken s) h2
    exact Refresh_rejects_revoked hashToken users _ now3 s id3 s3 exp false false r hf hr
  · intro id2 s2
    have hne : (({ generateRecord hashToken id0 owner s now0 exp with
        revokedAt := some now1 } : RefreshToken).tokenHash == hashToken s1) = false := by
      simp only [generateRecord]
      rw [beq_eq_false_iff_ne]
      intro hcontr
      exact hs1 (hinj hcontr).symm
    have hfind1 : getByTokenHash
        [{ generateRecord hashToken id0 owner s now0 exp with revokedAt := some now1 },
         generateRecord hashToken id1 owner s1 now1 exp] (hashToken s1) =
        some (generateRecord hashToken id1 owner s1 now1 exp) := by
      rw [getByTokenHash_cons, if_neg (by simp [hne]), getByTokenHash_cons,
        if_pos (by simp [generateRecord])]
    have hvalid1 : (generateRecord hashToken id1 owner s1 now1 exp).IsValid now2 = true := by
      simp [generateRecord, RefreshToken.IsValid, RefreshToken.IsRevoked,
        RefreshToken.IsExpired, hnexp2]
    exact ⟨_, by
      simp only [Refresh, hfind1]
      rw [if_neg (by simp [hvalid1]), if_neg (by simp [generateRecord, huser])]⟩
  · have hinv : ({ generateRecord hashToken id0 owner s now0 exp with
        revokedAt := some now1 } : RefreshToken).IsValid now1 = false := by
      simp [generateRecord, RefreshToken.IsValid, RefreshToken.IsRevoked]
    have hval2 : (generateRecord hashToken id1 owner s1 now1 exp).IsValid now1 = true := by
      simp [generateRecord, RefreshToken.IsValid, RefreshToken.IsRevoked,
        RefreshToken.IsExpired]
      omega
    rw [List.filter_cons, if_neg (by simp [hinv]), List.filter_cons,
      if_pos (by simp [hval2])]
    rfl

/-- Witness for C1: identity hash, owner 7, secrets s0/s1, ttl 100,
rotation at time 1, reuse and descendant use at time 2, empty further
chain. -/
theorem refresh_rotation_reuse_detection_witness :
    Refresh (fun x : String => x) [7]
        [generateRecord (fun x : String => x) 1 7 "s0" 0 100] 1 "s0" 2 "s1" 100
        false false =
      .ok ([{ generateRecord (fun x : String => x) 1 7 "s0" 0 100 with
              revokedAt := some 1 },
            generateRecord (fun x : String => x) 2 7 "s1" 1 100], "s1") ∧
    (∃ r, getByTokenHash
        [{ generateRecord (fun x : String => x) 1 7 "s0" 0 100 with revokedAt := some 1 },
         generateRecord (fun x : String => x) 2 7 "s1" 1 100] "s0" = some r ∧
      r.IsRevoked = true) ∧
    Refresh (fun x : String => x) [7]
        (refreshChain (fun x : String => x) [7] 100
          [{ generateRecord (fun x : String => x) 1 7 "s0" 0 100 with revokedAt := some 1 },
           generateRecord (fun x : String => x) 2 7 "s1" 1 100] []) 2 "s0" 3 "s2" 100
        false false = .error .invalidToken ∧
    (∃ st, Refresh (fun x : String => x) [7]
        [{ generateRecord (fun x : String => x) 1 7 "s0" 0 100 with revokedAt := some 1 },
         generateRecord (fun x : String => x) 2 7 "s1" 1 100] 2 "s1" 3 "s2" 100
        false false = .ok (st, "s2")) ∧
    ([{ generateRecord (fun x : String => x) 1 7 "s0" 0 100 with revokedAt := some 1 },
      generateRecord (fun x : String => x) 2 7 "s1" 1 100].filter
        (fun rt => rt.IsValid 1)).length = 1 := by
  have h := refresh_rotation_reuse_detection (fun x : String => x) (fun _ _ hab => hab)
    [7] 7 (by decide) "s0" "s1" (by decide) 1 2 0 1 2 100
    (by decide) (by decide) (by decide)
  exact ⟨h.1, h.2.1, h.2.2.1 [] 2 3 "s2", h.2.2.2.1 3 "s2", h.2.2.2.2⟩

/-- C2, counterexample to the claim: with a valid presented token and a
failing `tokenRepo.Create`, `Refresh` still answers success with the new
secret (no internal error), and the store is left exactly in the
"matched record revoked but no new record created" state the claim
forbids. -/
theorem refresh_persistence_failure_counterexample :
    Refresh (fun x : String => x) [7]
        [generateRecord (fun x : String => x) 1 7 "s0" 0 100] 1 "s0" 2 "s1" 100
        false true =
      .ok ([{ generateRecord (fun x : String => x) 1 7 "s0" 0 100 with
        revokedAt := some 1 }], "s1") := by
  rfl

/-- C2 as amended: when `tokenRepo.Revoke` or `tokenRepo.Create` fails
during `Refresh`, the handler logs and continues — the request still
succeeds with the new secret, and the store is left partially updated
accordingly (old record not revoked when Revoke failed; no new record
when Create failed). -/
theorem refresh_persistence_failures_swallowed
    (hashToken : String → String) (users : List Nat) (store : List RefreshToken)
    (now : Int) (presented : String) (nid : Nat) (nsec : String) (exp : Int)
    (rf cf : Bool) (r : RefreshToken)
    (hfind : getByTokenHash store (hashToken presented) = some r)
    (hvalid : r.IsValid now = true) (huser : r.userID ∈ users) :
    Refresh hashToken users store now presented nid nsec exp rf cf =
      .ok ((if cf then (if rf then store else revokeByHash store (hashToken presented) now)
        else (if rf then store else revokeByHash store (hashToken presented) now) ++
          [{ id := nid, userID := r.userID, tokenHash := hashToken nsec,
             expiresAt := now + exp, revokedAt := none, createdAt := now }]), nsec) := by
  simp only [Refresh, hfind]
  rw [if_neg (by simp [hvalid]), if_neg (by simp [huser])]

/-- Witness for the amended C2 at a failing `Create` (`cf = true`). -/
theorem refresh_persistence_failures_swallowed_witness :
    Refresh (fun x : String => x) [7]
        [generateRecord (fun x : String => x) 1 7 "s0" 0 100] 1 "s0" 2 "s1" 100
        false true =
      .ok ((if true then (if false then [generateRecord (fun x : String => x) 1 7 "s0" 0 100]
          else revokeByHash [generateRecord (fun x : String => x) 1 7 "s0" 0 100] "s0" 1)
        else (if false then [generateRecord (fun x : String => x) 1 7 "s0" 0 100]
          else revokeByHash [generateRecord (fun x : String => x) 1 7 "s0" 0 100] "s0" 1) ++
          [{ id := 2, userID := 7, tokenHash := "s1",
             expiresAt := 1 + 100, revokedAt := none, createdAt := 1 }]), "s1") :=
  refresh_persistence_failures_swallowed (fun x : String => x) [7]
    [generateRecord (fun x : String => x) 1 7 "s0" 0 100] 1 "s0" 2 "s1" 100
    false true (generateRecord (fun x : String => x) 1 7 "s0" 0 100)
    (by rfl) (by rfl) (by decide)

/-- C10: `Register` never rejects a request because of an unrecognized
role: whenever the other validations pass, the user is created, with
role PARENT if the requested role is not one of TEACHER/PARENT/ADMIN
(including the empty string); and every user `Register` creates has a
role satisfying `Role.IsValid`. -/
theorem register_role_defaulting (emailExists : Bool) (req : RegisterRequest)
    (hemail : (req.email == "") = false) (hpw : (req.password == "") = false)
    (hdn : (req.displayName == "") = false) (hex : emailExists = false) :
    (∃ u, Register emailExists req = .ok u ∧ Role.IsValid u.role = true ∧
      (Role.IsValid req.role = false → u.role = RoleParent)) ∧
    (∀ (e : Bool) (q : RegisterRequest) (u : UserRec),
      Register e q = .ok u → Role.IsValid u.role = true) := by
  constructor
  · refine ⟨UserRec.mk req.email
      (if Role.IsValid req.role then req.role else RoleParent), ?_, ?_, ?_⟩
    · unfold Register
      rw [if_neg (by simp [hemail, hpw, hdn]), if_neg (by simp [hex])]
    · cases hv : Role.IsValid req.role
      · simp [hv, RoleParent, Role.IsValid]
      · simp [hv]
    · intro hinvalid
      simp [hinvalid]
  · intro e q u hok
    unfold Register at hok
    by_cases h1 : (q.email == "" || q.password == "" || q.displayName == "") = true
    · rw [if_pos h1] at hok
      exact absurd hok (by simp)
    · rw [if_neg h1] at hok
      by_cases h2 : e = true
      · rw [if_pos h2] at hok
        exact absurd hok (by simp)
      · rw [if_neg h2] at hok
        have heq := Except.ok.inj hok
        rw [← heq]
        cases hv : Role.IsValid q.role
        · simp [hv, RoleParent, Role.IsValid]
        · simp [hv]

/-- Witness for C10 at an unrecognized role `"HACKER"`. -/
theorem register_role_defaulting_witness :
    (∃ u, Register false (⟨"a@b.c", "pw", "Name", "HACKER"⟩ : RegisterRequest) = .ok u ∧
      Role.IsValid u.role = true ∧
      (Role.IsValid "HACKER" = false → u.role = RoleParent)) ∧
    (∀ (e : Bool) (q : RegisterRequest) (u : UserRec),
      Register e q = .ok u → Role.IsValid u.role = true) :=
  register_role_defaulting false (⟨"a@b.c", "pw", "Name", "HACKER"⟩ : RegisterRequest)
    (by decide) (by decide) (by decide) rfl

end TinySchoolHub
